import Mathlib

/-!
Verification of the `json-preprocessor` stack-resource resolver
(`src/json_preprocessor/cli.py` and `src/json_preprocessor/main.py`).

The Python code is shallowly embedded: the process-wide cache
(`STACK_LOOKUP`) becomes explicit state passing, Python `dict`s become
insertion-ordered association lists with unique keys, `boto3` remote calls
become a `Remote` oracle whose invocations are recorded in a trace, and
`raise` becomes `Except`.
-/

set_option autoImplicit false

namespace JsonPreprocessor

/-- Python `dict` lookup (`d[k]` / `k in d`) on an insertion-ordered
association list.  Keys are unique in a Python dict, so the first match is
the only match. -/
def lookupAssoc {α : Type} : List (String × α) → String → Option α
  | [], _ => none
  | (k', v) :: rest, k => if k' = k then some v else lookupAssoc rest k

/-- Python `dict` assignment `d[k] = v`: if the key is present its value is
replaced in place (position preserved), otherwise the pair is appended,
matching insertion order of Python 3.7+ dicts. -/
def dictInsert {α : Type} : List (String × α) → String → α → List (String × α)
  | [], k, v => [(k, v)]
  | (k', v') :: rest, k, v =>
    if k' = k then (k', v) :: rest else (k', v') :: dictInsert rest k v

theorem lookupAssoc_dictInsert_self {α : Type} (l : List (String × α)) (k : String) (v : α) :
    lookupAssoc (dictInsert l k v) k = some v := by
  induction l with
  | nil => simp [dictInsert, lookupAssoc]
  | cons hd tl ih =>
    obtain ⟨k', v'⟩ := hd
    by_cases h : k' = k
    · simp [dictInsert, lookupAssoc, h]
    · simp [dictInsert, lookupAssoc, h, ih]

theorem lookupAssoc_dictInsert_of_ne {α : Type} (l : List (String × α)) (k k' : String)
    (v : α) (h : k ≠ k') : lookupAssoc (dictInsert l k v) k' = lookupAssoc l k' := by
  induction l with
  | nil => simp [dictInsert, lookupAssoc, h]
  | cons hd tl ih =>
    obtain ⟨k₀, v₀⟩ := hd
    by_cases h0 : k₀ = k
    · subst h0
      simp [dictInsert, lookupAssoc, h]
    · simp [dictInsert, lookupAssoc, h0, ih]

/-! ### `fnmatch` (Python standard library collaborator)

Shell-style glob matching as performed by `fnmatch.fnmatch(name, pattern)`
on a POSIX system (where `os.path.normcase` is the identity): `*` matches
any sequence, `?` any single character, `[seq]` a character class with `!`
negation and `a-b` ranges; an unterminated `[` matches itself literally;
the whole name must match the whole pattern. -/

/-- Scan the characters following `[` for the closing `]`, mirroring
`fnmatch.translate`: a leading `!` and a `]` right after it (or right at the
start) belong to the class body; returns `(class body, rest after the
closing bracket)`, or `none` when the bracket is unterminated. -/
def splitBracketAux : List Char → Option (List Char × List Char)
  | [] => none
  | ']' :: rest => some ([], rest)
  | c :: rest =>
    match splitBracketAux rest with
    | none => none
    | some (s, r) => some (c :: s, r)

def splitBracket : List Char → Option (List Char × List Char)
  | '!' :: ']' :: rest =>
    match splitBracketAux rest with
    | none => none
    | some (s, r) => some ('!' :: ']' :: s, r)
  | '!' :: rest =>
    match splitBracketAux rest with
    | none => none
    | some (s, r) => some ('!' :: s, r)
  | ']' :: rest =>
    match splitBracketAux rest with
    | none => none
    | some (s, r) => some (']' :: s, r)
  | cs => splitBracketAux cs

/-- Membership of a character in a (non-negated) class body: `a-b` denotes a
range (empty when `a > b`, as in `fnmatch.translate`), everything else is a
literal, with a trailing `-` literal. -/
def classMatches : List Char → Char → Bool
  | [], _ => false
  | [c], x => c = x
  | a :: '-' :: b :: rest, x => (a ≤ x && x ≤ b) || classMatches rest x
  | c :: rest, x => (c = x) || classMatches rest x

/-- Full class matching including leading `!` negation. -/
def bracketMatches (cls : List Char) (x : Char) : Bool :=
  match cls with
  | '!' :: body => !(classMatches body x)
  | _ => classMatches cls x

/-- The glob matcher, structurally recursive on a fuel argument so that it
reduces in the kernel; every recursive call strictly decreases
`ps.length + cs.length`, so `globMatch` below always supplies enough fuel. -/
def globMatchFuel : Nat → List Char → List Char → Bool
  | 0, _, _ => false
  | _ + 1, [], [] => true
  | _ + 1, [], _ :: _ => false
  | fuel + 1, '*' :: ps, [] => globMatchFuel fuel ps []
  | fuel + 1, '*' :: ps, c :: cs =>
    globMatchFuel fuel ps (c :: cs) || globMatchFuel fuel ('*' :: ps) cs
  | fuel + 1, '?' :: ps, _ :: cs => globMatchFuel fuel ps cs
  | _ + 1, '?' :: _, [] => false
  | fuel + 1, '[' :: ps, cs =>
    match splitBracket ps with
    | none =>
      -- unterminated bracket: `[` is a literal character
      match cs with
      | '[' :: cs' => globMatchFuel fuel ps cs'
      | _ => false
    | some (cls, ps') =>
      match cs with
      | c :: cs' => bracketMatches cls c && globMatchFuel fuel ps' cs'
      | [] => false
  | fuel + 1, p :: ps, c :: cs => (p = c) && globMatchFuel fuel ps cs
  | _ + 1, _ :: _, [] => false

/-- The glob matcher: `globMatch pattern name`. -/
def globMatch (ps cs : List Char) : Bool :=
  globMatchFuel (ps.length + cs.length + 1) ps cs

/-- `fnmatch.fnmatch(name, pattern)`. -/
def fnmatch (name pattern : String) : Bool :=
  globMatch pattern.toList name.toList

example : fnmatch "Stack/A" "Stack/*" = true := by decide
example : fnmatch "Stack/A" "Stack/Z*" = false := by decide
example : fnmatch "Stack/A" "Stack/?" = true := by decide
example : fnmatch "Stack/A" "Stack/[AB]" = true := by decide
example : fnmatch "Stack/C" "Stack/[AB]" = false := by decide
example : fnmatch "Stack/C" "Stack/[!AB]" = true := by decide
example : fnmatch "a[b" "a[b" = true := by decide
example : fnmatch "xyz" "x[a-z]z" = true := by decide

/-! ### Data model for `cli.py`'s `retrieve_attribute`

`STACK_LOOKUP` is the process-wide cache: stack name → index, where an
index maps an `aws:cdk:path` string to a physical resource id.  Remote
`boto3` calls are an oracle; each invocation is recorded in a trace. -/

/-- A Stack Resource Index: `aws:cdk:path` → physical resource id, in
insertion order (a Python dict). -/
abbrev Index := List (String × String)

/-- The `STACK_LOOKUP` cache: stack name → index (a Python dict). -/
abbrev Cache := List (String × Index)

/-- Errors raised by the Python code. -/
inductive PyErr where
  /-- a failure raised by a remote (`boto3`) call -/
  | remoteFailure (msg : String)
  /-- a `raise Exception(msg)` in the repository's own code -/
  | exceptionMsg (msg : String)
  /-- a `NameError` for an undefined name -/
  | nameError (name : String)
  /-- a `ValueError` raised by a standard-library collaborator -/
  | valueError (msg : String)
  deriving DecidableEq, Repr

/-- One remote call made through the `cloudformation` client, with the
region the client was created for. -/
inductive RemoteCall where
  /-- the paginated `list_stack_resources` enumeration -/
  | listResources (region stackName : String)
  /-- one `describe_stack_resource` detail fetch -/
  | describeResource (region stackName logicalId : String)
  deriving DecidableEq, Repr

/-- The region a remote call was issued against. -/
def RemoteCall.regionOf : RemoteCall → String
  | .listResources r _ => r
  | .describeResource r _ _ => r

/-- The `StackResourceDetail` record of a `describe_stack_resource`
response: the physical resource id, and the `Metadata` JSON string — when
present — already parsed into its top-level object (the code applies
`json.loads` to it and only reads the `aws:cdk:path` key). -/
structure StackResourceDetail where
  physicalResourceId : String
  metadata : Option (List (String × String))
  deriving DecidableEq, Repr

/-- The remote CloudFormation collaborator: the full pagination of
`list_stack_resources` (pages of `LogicalResourceId`s), and
`describe_stack_resource`; either may fail.  Arguments: region, stack
name (and logical id). -/
structure Remote where
  listPages : String → String → Except PyErr (List (List String))
  describe : String → String → String → Except PyErr StackResourceDetail

/-- A value returned by the resolver: a single physical id from an exact
lookup, or the list collected by a glob match. -/
inductive ResolvedValue where
  | single (id : String)
  | many (ids : List String)
  deriving DecidableEq, Repr

/-- The outcome of one `retrieve_attribute` call: its return value or
raised error, the cache (`STACK_LOOKUP`) after the call, and the trace of
remote calls it made. -/
structure RunOutcome where
  result : Except PyErr ResolvedValue
  cache : Cache
  calls : List RemoteCall
  deriving Repr

/-- Lines 35–44 of `cli.py`: the body of the `for idn in ids` loop.  The
loop state is the pair `(stack, path)` because line 42 assigns to the name
`path`, which is the *parameter* of `retrieve_attribute` — the loop
shadows-by-assignment the requested path. -/
def buildStep (detail : StackResourceDetail) (st : Index × String) : Index × String :=
  match detail.metadata with
  | none => st
  | some md =>
    match lookupAssoc md "aws:cdk:path" with
    | none => st
    | some p => (dictInsert st.1 p detail.physicalResourceId, p)

/-- The `for idn in ids` loop of lines 35–44: one `describe_stack_resource`
per logical id, threading `(stack, path)`; an error from a remote call
aborts the loop, propagating the error together with the calls made so
far. -/
def buildIndexLoop (remote : Remote) (region stackName : String) :
    List String → Index → String → Except PyErr (Index × String) × List RemoteCall
  | [], stack, path => (.ok (stack, path), [])
  | idn :: rest, stack, path =>
    match remote.describe region stackName idn with
    | .error e => (.error e, [.describeResource region stackName idn])
    | .ok detail =>
      let st := buildStep detail (stack, path)
      let next := buildIndexLoop remote region stackName rest st.1 st.2
      (next.1, .describeResource region stackName idn :: next.2)

/-- Lines 51–65 of `cli.py`: the wildcard test
(`'*' in path or '?' in path or '[' in path`; for a single-character
needle, Python substring containment is character membership). -/
def hasWildcards (path : String) : Bool :=
  path.toList.contains '*' || path.toList.contains '?' || path.toList.contains '['

/-- Lines 51–65 of `cli.py`: glob or exact lookup against the index.
Iterating a Python dict yields its keys in insertion order, and
`stack[candidate]` during that iteration is the value stored at the
candidate key, so the glob branch is a filter over the entries. -/
def lookupPhase (stack : Index) (stackName path : String) : Except PyErr ResolvedValue :=
  if hasWildcards path then
    let result := (stack.filter (fun kv => fnmatch kv.1 path)).map (·.2)
    if result.length = 0 then
      .error (.exceptionMsg ("pattern " ++ path ++ " not found in stack " ++ stackName))
    else
      .ok (.many result)
  else
    match lookupAssoc stack path with
    | some v => .ok (.single v)
    | none => .error (.exceptionMsg ("path " ++ path ++ " not found in stack " ++ stackName))

/-- `retrieve_attribute(stack_name, path)` of `cli.py` (lines 17–65), with
the module state made explicit: `region` is the module-level `REGION`,
`cache` is `STACK_LOOKUP` on entry.  `ids` is the flattening of the
paginated `StackResourceSummaries`; note that after a build the name
`path` holds the value left by the loop of lines 35–44, not necessarily
the argument. -/
def retrieve_attribute (region : String) (remote : Remote) (cache : Cache)
    (stackName path : String) : RunOutcome :=
  match lookupAssoc cache stackName with
  | some _ =>
    -- `stack_name in STACK_LOOKUP`: no build; line 49 reads the cache
    let stack := (lookupAssoc cache stackName).getD []
    ⟨lookupPhase stack stackName path, cache, []⟩
  | none =>
    match remote.listPages region stackName with
    | .error e => ⟨.error e, cache, [.listResources region stackName]⟩
    | .ok pages =>
      -- lines 27–31: flatten the pages into `ids`
      let ids := pages.foldl (fun acc page => acc ++ page) []
      let built := buildIndexLoop remote region stackName ids [] path
      match built.1 with
      | .error e =>
        ⟨.error e, cache, .listResources region stackName :: built.2⟩
      | .ok sp =>
        -- line 47: store the completed index; line 49: read it back
        let cache' := dictInsert cache stackName sp.1
        let stackRead := (lookupAssoc cache' stackName).getD []
        ⟨lookupPhase stackRead stackName sp.2, cache',
          .listResources region stackName :: built.2⟩

/-- Lines 9–11 of `cli.py`, run at import time: `REGION =
os.getenv('AWS_REGION')`, raising when unset.  The environment is an
association list. -/
def cliModuleLoad (env : List (String × String)) : Except PyErr String :=
  match lookupAssoc env "AWS_REGION" with
  | none => .error (.exceptionMsg "AWS_REGION not set")
  | some r => .ok r

/-! ### `urllib.parse` (Python standard library collaborator)

`urlsplit` extracts scheme (lowercase, `letter (letter|digit|+|-|.)*`
before a `:`), netloc (after `//`, up to the first `/`, `?` or `#`), then
strips fragment and query from the remainder, leaving the path — and it
can raise: a netloc with an unbalanced bracket raises
`ValueError("Invalid IPv6 URL")`, and `_checknetloc` raises when a
non-ASCII netloc changes under NFKC normalization in a way that
introduces one of `/?#@:`.  NFKC normalization itself
(`unicodedata.normalize`) is supplied as a collaborator parameter
`nfkc`; it is never consulted for an ASCII netloc, which short-circuits
the check exactly as in CPython. -/

/-- Split a character list at the first occurrence of `sep`; `none` when
`sep` does not occur. -/
def splitFirst (sep : Char) : List Char → Option (List Char × List Char)
  | [] => none
  | c :: rest =>
    if c = sep then some ([], rest)
    else
      match splitFirst sep rest with
      | none => none
      | some (b, a) => some (c :: b, a)

/-- The characters allowed in a URI scheme after the first letter. -/
def isSchemeChar (c : Char) : Bool :=
  c.isAlpha || c.isDigit || c = '+' || c = '-' || c = '.'

/-- The result of `urllib.parse.urlsplit`. -/
structure SplitResult where
  scheme : String
  netloc : String
  path : String
  query : String
  fragment : String
  deriving DecidableEq, Repr

/-- `urllib.parse._checknetloc(netloc)`: an empty or all-ASCII netloc
passes; otherwise the netloc with `@`, `:`, `#`, `?` removed is NFKC
normalized, and if normalization changed it and the normal form contains
one of `/?#@:`, a `ValueError` is raised. -/
def checknetloc (nfkc : String → String) (netloc : List Char) : Except PyErr Unit :=
  if netloc.isEmpty || netloc.all (fun c => c.toNat < 128) then .ok ()
  else
    let n := netloc.filter (fun c => !(c == '@' || c == ':' || c == '#' || c == '?'))
    let n2 := (nfkc (String.mk n)).toList
    if n = n2 then .ok ()
    else if ['/', '?', '#', '@', ':'].any (fun c => n2.contains c) then
      .error (.valueError ("netloc \x27" ++ String.mk netloc ++
        "\x27 contains invalid characters under NFKC normalization"))
    else .ok ()

/-- `urllib.parse.urlsplit(url)`, with both of its `ValueError` paths:
the unbalanced-bracket check right after the netloc is split off, and
`_checknetloc` before the result is returned. -/
def urlsplit (nfkc : String → String) (url : String) : Except PyErr SplitResult :=
  let cs := url.toList
  -- scheme: a `letter (scheme char)*` prefix before a `:`
  let schemeSplit :=
    match splitFirst ':' cs with
    | some (before, after) =>
      match before with
      | [] => ([], cs)
      | c :: _ =>
        if c.isAlpha && before.all isSchemeChar then (before.map Char.toLower, after)
        else ([], cs)
    | none => ([], cs)
  let scheme := schemeSplit.1
  let rest := schemeSplit.2
  -- netloc: after a leading `//`, up to the first `/`, `?` or `#`
  let netlocSplit :=
    match rest with
    | '/' :: '/' :: r =>
      (r.takeWhile (fun c => c != '/' && c != '?' && c != '#'),
       r.dropWhile (fun c => c != '/' && c != '?' && c != '#'))
    | _ => ([], rest)
  let netloc := netlocSplit.1
  let rest2 := netlocSplit.2
  if (netloc.contains '[' && !netloc.contains ']') ||
      (netloc.contains ']' && !netloc.contains '[') then
    .error (.valueError "Invalid IPv6 URL")
  else
    -- fragment
    let fragSplit :=
      match splitFirst '#' rest2 with
      | some (b, a) => (b, a)
      | none => (rest2, [])
    -- query
    let querySplit :=
      match splitFirst '?' fragSplit.1 with
      | some (b, a) => (b, a)
      | none => (fragSplit.1, [])
    match checknetloc nfkc netloc with
    | .error e => .error e
    | .ok _ =>
      .ok ⟨String.mk scheme, String.mk netloc, String.mk querySplit.1,
        String.mk querySplit.2, String.mk fragSplit.2⟩

/-- `urllib.parse.urldefrag(url)`.  When the url has no `#` it is
returned unparsed.  Otherwise CPython parses the whole url with
`urlparse` — raising exactly `urlsplit`'s errors — and reassembles it
without the fragment via `urlunparse`; the reassembled string splits into
the same scheme/netloc/path/query components as the prefix before the
first `#` (reassembly only lowercases the scheme, which re-splitting
does anyway, reattaches `;`-params verbatim, and may drop an empty `?`
or a redundant `//` marker, none of which change the re-split
components), so the model returns that prefix. -/
def urldefrag (nfkc : String → String) (url : String) : Except PyErr (String × String) :=
  match splitFirst '#' url.toList with
  | some (b, a) =>
    match urlsplit nfkc url with
    | .error e => .error e
    | .ok _ => .ok (String.mk b, String.mk a)
  | none => .ok (url, "")

/-- `parse_cfn_uri(uri)` of `cli.py` (lines 67–86): drop the fragment,
split the URI (either of which may raise a `ValueError`, which
propagates), require scheme `cfn`, and return `(netloc, netloc + path)`. -/
def parse_cfn_uri (nfkc : String → String) (uri : String) :
    Except PyErr (String × String) :=
  match urldefrag nfkc uri with
  | .error e => .error e
  | .ok df =>
    match urlsplit nfkc df.1 with
    | .error e => .error e
    | .ok parts =>
      if parts.scheme ≠ "cfn" then
        .error (.exceptionMsg ("Scheme \x27" ++ parts.scheme ++ "\x27 not supported."))
      else
        .ok (parts.netloc, parts.netloc ++ parts.path)

/-- `handle_cfn_uri(uri)` of `cli.py` (lines 88–98): parse the URI and
retrieve; a parse failure propagates before any remote call. -/
def handle_cfn_uri (nfkc : String → String) (region : String) (remote : Remote)
    (cache : Cache) (uri : String) : RunOutcome :=
  match parse_cfn_uri nfkc uri with
  | .error e => ⟨.error e, cache, []⟩
  | .ok sp => retrieve_attribute region remote cache sp.1 sp.2

/-- A stand-in for the NFKC collaborator, used only on inputs whose
netloc is ASCII, where `_checknetloc` short-circuits before consulting
it. -/
def nfkcStub : String → String := fun s => s

example : parse_cfn_uri nfkcStub "cfn://stack/A#frag" = .ok ("stack", "stack/A") := rfl
example : (parse_cfn_uri nfkcStub "http://stack/A").isOk = false := rfl
example : parse_cfn_uri nfkcStub "cfn://[a/b" = .error (.valueError "Invalid IPv6 URL") := rfl

/-! ### `main.py`

The module-level names bound in `main.py` (its imports and top-level
definitions).  The imports are `import boto.cloudformation`, `import
click`, `import json`, `from urllib.parse import urldefrag, urlsplit` and
`from .resolution import resolve` — the name `urlparse` is bound by none
of them, and `main.py` never defines it, so evaluating the identifier
`urlparse` raises a `NameError`. -/

def mainModuleGlobals : List String :=
  ["boto", "click", "json", "urldefrag", "urlsplit", "resolve",
   "retrieve_attribute", "parse_cfn_uri", "handle_cfn_uri",
   "resolve_template_with_cfn_support", "aws_profile_help_text",
   "minify_help_text", "output_file_optional_help_text",
   "parameter_help_text", "cli"]

/-- Python name resolution for a global read: `NameError` when the name is
bound neither in the module namespace (builtins define none of the names
looked up here). -/
def resolveGlobal (names : List String) (name : String) : Except PyErr Unit :=
  if name ∈ names then .ok () else .error (.nameError name)

/-- Python's `str.strip(c)`: drop leading and trailing occurrences of a
single character. -/
def stripChar (c : Char) (cs : List Char) : List Char :=
  ((cs.dropWhile (· == c)).reverse.dropWhile (· == c)).reverse

/-- The tuple returned by `main.py`'s `parse_cfn_uri`:
`(stack_name, logical_name, attribute, region)` with the two optional
components as `Option`. -/
structure MainParsedUri where
  stackName : String
  logicalName : String
  attr : Option String
  region : Option String
  deriving DecidableEq, Repr

/-- `parse_cfn_uri(uri)` of `main.py` (lines 31–77).  Line 42 evaluates
`urlparse.urldefrag(uri)`: the global name `urlparse` is resolved before
anything else, and it is not bound in the module (see
`mainModuleGlobals`), so the function raises `NameError` before any
parsing; the rest of the body is embedded faithfully but is unreachable. -/
def main_parse_cfn_uri (nfkc : String → String) (uri : String) :
    Except PyErr MainParsedUri := do
  -- line 42: `base_uri, frag = urlparse.urldefrag(uri)`
  let _ ← resolveGlobal mainModuleGlobals "urlparse"
  let df ← urldefrag nfkc uri
  -- line 43: `base_uri_parts = urlparse.urlsplit(base_uri)`
  let _ ← resolveGlobal mainModuleGlobals "urlparse"
  let parts ← urlsplit nfkc df.1
  -- lines 46–47: scheme check
  if parts.scheme ≠ "cfn" then
    throw (.exceptionMsg ("Scheme \x27" ++ parts.scheme ++ "\x27 not supported."))
  -- lines 50–61: netloc section
  let netlocParts := parts.netloc.splitOn "@"
  if netlocParts.length > 2 then
    throw (.exceptionMsg ("URI contains unexpected components in net " ++
      "location \x27" ++ parts.netloc ++ "\x27."))
  let stackName ← match netlocParts with
    | s :: _ => pure s
    | [] => throw (.exceptionMsg "URI is missing stack name.")
  let region := if netlocParts.length = 2 then some (netlocParts.getD 1 "") else none
  -- lines 64–75: path section
  let pathParts := (String.mk (stripChar '/' parts.path.toList)).splitOn "/"
  if pathParts.length > 2 then
    throw (.exceptionMsg ("URI contains unexpected components in query " ++
      "path \x27" ++ parts.path ++ "\x27."))
  let logicalName ← match pathParts with
    | l :: _ => pure l
    | [] => throw (.exceptionMsg "URI is missing logical name for stack resource.")
  let attr := if pathParts.length = 2 then some (pathParts.getD 1 "") else none
  pure ⟨stackName, logicalName, attr, region⟩

/-! ### Supporting lemmas -/

theorem lookupAssoc_eq_none_of_not_mem {α : Type} (l : List (String × α)) (q : String)
    (h : q ∉ l.map Prod.fst) : lookupAssoc l q = none := by
  induction l with
  | nil => rfl
  | cons hd tl ih =>
    simp only [List.map_cons, List.mem_cons, not_or] at h
    have hne : hd.1 ≠ q := fun he => h.1 he.symm
    simp [lookupAssoc, hne, ih h.2]

theorem lookupAssoc_eq_some_of_mem {α : Type} (l : List (String × α)) (q : String) (v : α)
    (hnd : (l.map Prod.fst).Nodup) (h : (q, v) ∈ l) : lookupAssoc l q = some v := by
  induction l with
  | nil => simp at h
  | cons hd tl ih =>
    simp only [List.map_cons, List.nodup_cons] at hnd
    rcases List.mem_cons.mp h with h1 | h1
    · simp [lookupAssoc, ← h1]
    · have hne : hd.1 ≠ q := by
        intro he
        exact hnd.1 (he ▸ List.mem_map_of_mem Prod.fst h1)
      simp [lookupAssoc, hne, ih hnd.2 h1]

/-- On success, the build loop issues exactly one `describe_stack_resource`
call per enumerated logical id, in order. -/
theorem buildIndexLoop_ok_calls (remote : Remote) (region s : String) :
    ∀ (ids : List String) (stack : Index) (path : String) (r : Index × String),
      (buildIndexLoop remote region s ids stack path).1 = .ok r →
      (buildIndexLoop remote region s ids stack path).2 =
        ids.map (RemoteCall.describeResource region s) := by
  intro ids
  induction ids with
  | nil => intro stack path r _; rfl
  | cons i rest ih =>
    intro stack path r hr
    simp only [buildIndexLoop] at hr ⊢
    cases hdesc : remote.describe region s i with
    | error e => rw [hdesc] at hr; simp at hr
    | ok detail =>
      rw [hdesc] at hr
      dsimp only at hr ⊢
      simp only [List.map_cons, List.cons.injEq, true_and]
      exact ih _ _ r hr

/-- Every remote call recorded by the build loop is issued against the
region the client was created for. -/
theorem buildIndexLoop_calls_region (remote : Remote) (region s : String) :
    ∀ (ids : List String) (stack : Index) (path : String) (c : RemoteCall),
      c ∈ (buildIndexLoop remote region s ids stack path).2 → c.regionOf = region := by
  intro ids
  induction ids with
  | nil => intro stack path c hc; simp [buildIndexLoop] at hc
  | cons i rest ih =>
    intro stack path c hc
    simp only [buildIndexLoop] at hc
    cases hdesc : remote.describe region s i with
    | error e =>
      rw [hdesc] at hc
      simp at hc
      simp [hc, RemoteCall.regionOf]
    | ok detail =>
      rw [hdesc] at hc
      simp only [List.mem_cons] at hc
      rcases hc with hc | hc
      · simp [hc, RemoteCall.regionOf]
      · exact ih _ _ c hc

/-- A failing build loop failed because some `describe_stack_resource`
call failed. -/
theorem buildIndexLoop_error_describe (remote : Remote) (region s : String) :
    ∀ (ids : List String) (stack : Index) (path : String) (e : PyErr),
      (buildIndexLoop remote region s ids stack path).1 = .error e →
      ∃ i ∈ ids, remote.describe region s i = .error e := by
  intro ids
  induction ids with
  | nil => intro stack path e he; simp [buildIndexLoop] at he
  | cons i rest ih =>
    intro stack path e he
    simp only [buildIndexLoop] at he
    cases hdesc : remote.describe region s i with
    | error e' =>
      rw [hdesc] at he
      dsimp only at he
      have hee : e' = e := by
        injection he
      exact ⟨i, List.mem_cons_self i rest, by rw [hdesc, hee]⟩
    | ok detail =>
      rw [hdesc] at he
      simp only at he
      obtain ⟨j, hj, hje⟩ := ih _ _ e he
      exact ⟨j, List.mem_cons_of_mem i hj, hje⟩

/-- The `aws:cdk:path` value a detail record contributes: its `Metadata`,
when present, parsed and looked up at the `aws:cdk:path` key. -/
def cdkPathOf (detail : StackResourceDetail) : Option String :=
  detail.metadata.bind (fun md => lookupAssoc md "aws:cdk:path")

/-- The `(aws:cdk:path, physical id)` pairs contributed by the listed
logical ids, in enumeration order, given the detail record of each. -/
def cdkEntries (d : String → StackResourceDetail) (ids : List String) :
    List (String × String) :=
  ids.filterMap (fun i => (cdkPathOf (d i)).map (fun q => (q, (d i).physicalResourceId)))

/-- The value left in the (shadowed) `path` variable by the build loop:
the last `aws:cdk:path` seen, or the initial value when none was seen. -/
def lastCdkPath (d : String → StackResourceDetail) : List String → String → String
  | [], p => p
  | i :: rest, p => lastCdkPath d rest ((cdkPathOf (d i)).getD p)

theorem buildStep_eq (d : StackResourceDetail) (st : Index × String) :
    buildStep d st =
      match cdkPathOf d with
      | none => st
      | some q => (dictInsert st.1 q d.physicalResourceId, q) := by
  cases hmd : d.metadata with
  | none => simp [buildStep, cdkPathOf, hmd]
  | some md =>
    cases hl : lookupAssoc md "aws:cdk:path" with
    | none => simp [buildStep, cdkPathOf, hmd, hl]
    | some q => simp [buildStep, cdkPathOf, hmd, hl]

/-- When every `describe_stack_resource` call succeeds, the build loop
succeeds and folds the contributed entries into the index with Python dict
insertion, leaving the last seen `aws:cdk:path` in the `path` variable. -/
theorem buildIndexLoop_ok_of_describe (remote : Remote) (region s : String)
    (d : String → StackResourceDetail) :
    ∀ (ids : List String) (stack : Index) (path : String),
      (∀ i ∈ ids, remote.describe region s i = .ok (d i)) →
      (buildIndexLoop remote region s ids stack path).1 =
        .ok ((cdkEntries d ids).foldl (fun acc e => dictInsert acc e.1 e.2) stack,
             lastCdkPath d ids path) := by
  intro ids
  induction ids with
  | nil => intro stack path _; rfl
  | cons i rest ih =>
    intro stack path hd
    have hi : remote.describe region s i = .ok (d i) := hd i (List.mem_cons_self i rest)
    simp only [buildIndexLoop, hi]
    rw [buildStep_eq]
    cases hq : cdkPathOf (d i) with
    | none =>
      simp only [cdkEntries, List.filterMap_cons, hq, Option.map_none']
      rw [show lastCdkPath d (i :: rest) path = lastCdkPath d rest path by
        simp [lastCdkPath, hq]]
      exact ih stack path (fun j hj => hd j (List.mem_cons_of_mem i hj))
    | some q =>
      simp only [cdkEntries, List.filterMap_cons, hq, Option.map_some', List.foldl_cons]
      rw [show lastCdkPath d (i :: rest) path = lastCdkPath d rest q by
        simp [lastCdkPath, hq]]
      exact ih (dictInsert stack q (d i).physicalResourceId) q
        (fun j hj => hd j (List.mem_cons_of_mem i hj))

/-- Folding Python dict insertion over entries with pairwise-distinct keys
yields a dict that agrees with association-list lookup on the entries. -/
theorem lookupAssoc_foldl_dictInsert :
    ∀ (es acc : List (String × String)) (q : String),
      (es.map Prod.fst).Nodup →
      lookupAssoc (es.foldl (fun a e => dictInsert a e.1 e.2) acc) q =
        match lookupAssoc es q with
        | some v => some v
        | none => lookupAssoc acc q := by
  intro es
  induction es with
  | nil => intro acc q _; rfl
  | cons e rest ih =>
    intro acc q hnd
    simp only [List.map_cons, List.nodup_cons] at hnd
    simp only [List.foldl_cons]
    rw [ih (dictInsert acc e.1 e.2) q hnd.2]
    by_cases hq : e.1 = q
    · subst hq
      rw [lookupAssoc_eq_none_of_not_mem rest e.1 hnd.1]
      simp [lookupAssoc, lookupAssoc_dictInsert_self]
    · simp only [lookupAssoc, hq, if_false]
      cases lookupAssoc rest q with
      | none => simp [lookupAssoc_dictInsert_of_ne acc e.1 q _ hq]
      | some v => simp

/-- `handle_cfn_uri(uri)` of `main.py` (lines 80–105), parameterized over
the retrieval collaborator (`retrieve_attribute` of `main.py`, a `boto`
call): parse, default the attribute to `PhysicalResourceID`, retrieve. -/
def main_handle_cfn_uri (nfkc : String → String)
    (retrieveFn : String → String → String → Option String → Except PyErr String)
    (uri : String) : Except PyErr String := do
  let parsed ← main_parse_cfn_uri nfkc uri
  let attr := parsed.attr.getD "PhysicalResourceID"
  retrieveFn parsed.stackName parsed.logicalName attr parsed.region

/-! ### Concrete fixtures used by witnesses -/

/-- A remote collaborator whose calls all fail. -/
def remoteStub : Remote :=
  ⟨fun _ _ => .error (.remoteFailure "down"),
   fun _ _ _ => .error (.remoteFailure "down")⟩

/-- A remote collaborator with one stack of one resource, whose detail
record carries `aws:cdk:path = Stack/A` and physical id `pid-A`. -/
def remoteOne : Remote :=
  ⟨fun _ _ => .ok [["r1"]],
   fun _ _ _ => .ok ⟨"pid-A", some [("aws:cdk:path", "Stack/A")]⟩⟩

/-- A cache already holding the index of the spec's §8 example. -/
def cacheEx : Cache := [("Stack", [("Stack/A", "id1"), ("Stack/B", "id2")])]

/-- With the stack already cached, `retrieve_attribute` is the pure lookup
phase: no remote calls and no cache change. -/
theorem retrieve_attribute_cached (region : String) (remote : Remote) (cache : Cache)
    (s p : String) (idx : Index) (h : lookupAssoc cache s = some idx) :
    retrieve_attribute region remote cache s p = ⟨lookupPhase idx s p, cache, []⟩ := by
  simp [retrieve_attribute, h]

/-! ### The claims -/

/-- C2: with the stack's index cached, an exact path (no `*`, `?`, `[`)
present as a key resolves to the single physical id stored at that key,
and a glob path resolves to the ordered sequence of physical ids of
exactly the keys matching the pattern under shell glob semantics, in index
iteration order. -/
theorem c2_cached_exact_and_glob (region : String) (remote : Remote) (cache : Cache)
    (s p : String) (idx : Index) (h : lookupAssoc cache s = some idx) :
    (hasWildcards p = false → ∀ v, lookupAssoc idx p = some v →
      (retrieve_attribute region remote cache s p).result = .ok (.single v)) ∧
    (hasWildcards p = true →
      (idx.filter (fun kv => fnmatch kv.1 p)).map (·.2) ≠ [] →
      (retrieve_attribute region remote cache s p).result =
        .ok (.many ((idx.filter (fun kv => fnmatch kv.1 p)).map (·.2)))) := by
  rw [retrieve_attribute_cached region remote cache s p idx h]
  constructor
  · intro hw v hv
    simp [lookupPhase, hw, hv]
  · intro hw hne
    simp only [lookupPhase, hw, if_true]
    rw [if_neg]
    simp only [List.length_eq_zero]
    exact hne

/-- Witness for C2 on the spec's §8 example index. -/
theorem c2_witness :
    (retrieve_attribute "r" remoteStub cacheEx "Stack" "Stack/A").result =
      .ok (.single "id1") ∧
    (retrieve_attribute "r" remoteStub cacheEx "Stack" "Stack/*").result =
      .ok (.many ["id1", "id2"]) := by
  constructor
  · exact (c2_cached_exact_and_glob "r" remoteStub cacheEx "Stack" "Stack/A"
      [("Stack/A", "id1"), ("Stack/B", "id2")] rfl).1 rfl "id1" rfl
  · exact (c2_cached_exact_and_glob "r" remoteStub cacheEx "Stack" "Stack/*"
      [("Stack/A", "id1"), ("Stack/B", "id2")] rfl).2 rfl (by decide)

/-- C4: with the stack's index cached, an exact lookup raises exactly when
the path is absent (the `path ... not found` error), a glob lookup raises
exactly when no key matches (the `pattern ... not found` error), and any
raised error is one of those two cases. -/
theorem c4_cached_error_conditions (region : String) (remote : Remote) (cache : Cache)
    (s p : String) (idx : Index) (h : lookupAssoc cache s = some idx) :
    (hasWildcards p = false →
      ((retrieve_attribute region remote cache s p).result =
        .error (.exceptionMsg ("path " ++ p ++ " not found in stack " ++ s)) ↔
        lookupAssoc idx p = none)) ∧
    (hasWildcards p = true →
      ((retrieve_attribute region remote cache s p).result =
        .error (.exceptionMsg ("pattern " ++ p ++ " not found in stack " ++ s)) ↔
        idx.filter (fun kv => fnmatch kv.1 p) = [])) ∧
    (∀ e, (retrieve_attribute region remote cache s p).result = .error e →
      (hasWildcards p = false ∧ lookupAssoc idx p = none) ∨
      (hasWildcards p = true ∧ idx.filter (fun kv => fnmatch kv.1 p) = [])) := by
  rw [retrieve_attribute_cached region remote cache s p idx h]
  refine ⟨?_, ?_, ?_⟩
  · intro hw
    cases hl : lookupAssoc idx p with
    | none => simp [lookupPhase, hw, hl]
    | some v => simp [lookupPhase, hw, hl]
  · intro hw
    by_cases hf : idx.filter (fun kv => fnmatch kv.1 p) = []
    · simp [lookupPhase, hw, hf]
    · simp only [lookupPhase, hw, if_true]
      rw [if_neg (by simp only [List.length_eq_zero, List.map_eq_nil_iff]; exact hf)]
      simp [hf]
  · intro e he
    by_cases hw : hasWildcards p
    · by_cases hf : idx.filter (fun kv => fnmatch kv.1 p) = []
      · exact Or.inr ⟨hw, hf⟩
      · exfalso
        simp only [lookupPhase, hw, if_true] at he
        rw [if_neg (by simp only [List.length_eq_zero, List.map_eq_nil_iff]; exact hf)] at he
        simp at he
    · cases hl : lookupAssoc idx p with
      | none => exact Or.inl ⟨by simpa using hw, rfl⟩
      | some v =>
        exfalso
        simp [lookupPhase, hw, hl] at he

/-- Witness for C4 on the spec's §8 example index: `Stack/C` misses and
`Stack/Z*` matches nothing. -/
theorem c4_witness :
    (retrieve_attribute "r" remoteStub cacheEx "Stack" "Stack/C").result =
      .error (.exceptionMsg "path Stack/C not found in stack Stack") ∧
    (retrieve_attribute "r" remoteStub cacheEx "Stack" "Stack/Z*").result =
      .error (.exceptionMsg "pattern Stack/Z* not found in stack Stack") := by
  constructor
  · exact ((c4_cached_error_conditions "r" remoteStub cacheEx "Stack" "Stack/C"
      [("Stack/A", "id1"), ("Stack/B", "id2")] rfl).1 rfl).mpr rfl
  · exact (((c4_cached_error_conditions "r" remoteStub cacheEx "Stack" "Stack/Z*"
      [("Stack/A", "id1"), ("Stack/B", "id2")] rfl).2.1 rfl)).mpr (by decide)

/-- C1 (code bug): line 42 of `cli.py` assigns to `path`, the parameter of
`retrieve_attribute`, inside the index-building loop; so when the index is
built during the call, the lookup of lines 51–65 uses the last
`aws:cdk:path` seen — not the path the caller asked for.  Here resolving
`Stack/B` on a cold cache returns the physical id stored under `Stack/A`,
while the same lookup against the already-cached index correctly fails. -/
theorem c1_shadowed_path_bug :
    (retrieve_attribute "eu-west-1" remoteOne [] "Stack" "Stack/B").result =
      .ok (.single "pid-A") ∧
    (retrieve_attribute "eu-west-1" remoteOne
        [("Stack", [("Stack/A", "pid-A")])] "Stack" "Stack/B").result =
      .error (.exceptionMsg "path Stack/B not found in stack Stack") :=
  ⟨rfl, rfl⟩

/-- C3: the index for a stack name is built at most once.  On a cold cache
a successful call performs exactly one paginated enumeration plus one
detail fetch per enumerated resource and stores the completed index; any
later call for the same stack name performs no remote calls, leaves the
cache unchanged, and resolves against the stored index. -/
theorem c3_index_built_once (region : String) (remote : Remote) (cache : Cache)
    (s p : String) (pages : List (List String)) (r : Index × String)
    (h0 : lookupAssoc cache s = none)
    (h1 : remote.listPages region s = .ok pages)
    (h2 : (buildIndexLoop remote region s
      (pages.foldl (fun acc page => acc ++ page) []) [] p).1 = .ok r) :
    (retrieve_attribute region remote cache s p).calls =
      .listResources region s ::
        (pages.foldl (fun acc page => acc ++ page) []).map
          (RemoteCall.describeResource region s) ∧
    (retrieve_attribute region remote cache s p).cache = dictInsert cache s r.1 ∧
    lookupAssoc (retrieve_attribute region remote cache s p).cache s = some r.1 ∧
    (∀ p' : String,
      (retrieve_attribute region remote
        (retrieve_attribute region remote cache s p).cache s p').calls = [] ∧
      (retrieve_attribute region remote
        (retrieve_attribute region remote cache s p).cache s p').cache =
        (retrieve_attribute region remote cache s p).cache ∧
      (retrieve_attribute region remote
        (retrieve_attribute region remote cache s p).cache s p').result =
        lookupPhase r.1 s p') := by
  have hcalls := buildIndexLoop_ok_calls remote region s
    (pages.foldl (fun acc page => acc ++ page) []) [] p r h2
  have hout : retrieve_attribute region remote cache s p =
      ⟨lookupPhase r.1 s r.2, dictInsert cache s r.1,
        .listResources region s ::
          (pages.foldl (fun acc page => acc ++ page) []).map
            (RemoteCall.describeResource region s)⟩ := by
    simp only [retrieve_attribute, h0, h1]
    rw [h2, hcalls]
    simp [lookupAssoc_dictInsert_self]
  have hlook : lookupAssoc (dictInsert cache s r.1) s = some r.1 :=
    lookupAssoc_dictInsert_self cache s r.1
  refine ⟨by rw [hout], by rw [hout], by rw [hout]; exact hlook, ?_⟩
  intro p'
  rw [hout]
  rw [retrieve_attribute_cached region remote (dictInsert cache s r.1) s p' r.1 hlook]
  exact ⟨rfl, rfl, rfl⟩

/-- Witness for C3: one resource, one page; the first call makes exactly
the enumeration call and one detail call, the second call makes none. -/
theorem c3_witness :
    (retrieve_attribute "eu-west-1" remoteOne [] "Stack" "Stack/A").calls =
      [.listResources "eu-west-1" "Stack",
       .describeResource "eu-west-1" "Stack" "r1"] ∧
    (retrieve_attribute "eu-west-1" remoteOne
      (retrieve_attribute "eu-west-1" remoteOne [] "Stack" "Stack/A").cache
      "Stack" "Stack/A").calls = [] := by
  have h := c3_index_built_once "eu-west-1" remoteOne [] "Stack" "Stack/A"
    [["r1"]] ([("Stack/A", "pid-A")], "Stack/A") rfl rfl rfl
  exact ⟨h.1, (h.2.2.2 "Stack/A").1⟩

/-- C6: if the remote enumeration or any detail fetch fails while the
index is being built, the error propagates and the cache is unchanged —
no entry is stored for that stack name. -/
theorem c6_build_failure_leaves_cache_unchanged (region : String) (remote : Remote)
    (cache : Cache) (s p : String) (e : PyErr)
    (h0 : lookupAssoc cache s = none)
    (hfail : remote.listPages region s = .error e ∨
      ∃ pages, remote.listPages region s = .ok pages ∧
        (buildIndexLoop remote region s
          (pages.foldl (fun acc page => acc ++ page) []) [] p).1 = .error e) :
    (retrieve_attribute region remote cache s p).result = .error e ∧
    (retrieve_attribute region remote cache s p).cache = cache := by
  rcases hfail with h1 | ⟨pages, h1, h2⟩
  · simp [retrieve_attribute, h0, h1]
  · simp only [retrieve_attribute, h0, h1]
    rw [h2]
    exact ⟨rfl, rfl⟩

/-- Witness for C6: the enumeration itself fails. -/
theorem c6_witness :
    (retrieve_attribute "r" remoteStub [] "S" "p").result =
      .error (.remoteFailure "down") ∧
    (retrieve_attribute "r" remoteStub [] "S" "p").cache = [] :=
  c6_build_failure_leaves_cache_unchanged "r" remoteStub [] "S" "p"
    (.remoteFailure "down") rfl (Or.inl rfl)

/-- C7: the index built for a stack maps exactly the `aws:cdk:path`
values of the enumerated resources that carry one to those resources'
physical ids (assuming the paths are pairwise distinct, as the data model
requires of the index keys); resources without a `Metadata` field or
without the `aws:cdk:path` key contribute nothing. -/
theorem c7_index_contents (region : String) (remote : Remote) (cache : Cache)
    (s p : String) (pages : List (List String)) (d : String → StackResourceDetail)
    (h0 : lookupAssoc cache s = none)
    (h1 : remote.listPages region s = .ok pages)
    (hd : ∀ i ∈ pages.foldl (fun acc page => acc ++ page) [],
      remote.describe region s i = .ok (d i))
    (hnd : ((cdkEntries d (pages.foldl (fun acc page => acc ++ page) [])).map
      Prod.fst).Nodup) :
    ∃ idx : Index,
      lookupAssoc (retrieve_attribute region remote cache s p).cache s = some idx ∧
      (∀ i ∈ pages.foldl (fun acc page => acc ++ page) [], ∀ q,
        cdkPathOf (d i) = some q →
        lookupAssoc idx q = some (d i).physicalResourceId) ∧
      (∀ q, (∀ i ∈ pages.foldl (fun acc page => acc ++ page) [],
        cdkPathOf (d i) ≠ some q) → lookupAssoc idx q = none) := by
  have hids := pages.foldl (fun acc page => acc ++ page) []
  have hb := buildIndexLoop_ok_of_describe remote region s d
    (pages.foldl (fun acc page => acc ++ page) []) [] p hd
  set ids := pages.foldl (fun acc page => acc ++ page) [] with hidsdef
  set idx := (cdkEntries d ids).foldl (fun acc e => dictInsert acc e.1 e.2) []
    with hidx
  refine ⟨idx, ?_, ?_, ?_⟩
  · simp only [retrieve_attribute, h0, h1]
    rw [hb]
    simp [lookupAssoc_dictInsert_self]
  · intro i hi q hq
    have hmem : (q, (d i).physicalResourceId) ∈ cdkEntries d ids := by
      apply List.mem_filterMap.mpr
      exact ⟨i, hi, by rw [hq]; rfl⟩
    have hes : lookupAssoc (cdkEntries d ids) q = some (d i).physicalResourceId :=
      lookupAssoc_eq_some_of_mem _ _ _ hnd hmem
    rw [hidx, lookupAssoc_foldl_dictInsert (cdkEntries d ids) [] q hnd, hes]
  · intro q hq
    have hnone : lookupAssoc (cdkEntries d ids) q = none := by
      apply lookupAssoc_eq_none_of_not_mem
      intro hmemq
      obtain ⟨⟨q', v⟩, hpair, hfst⟩ := List.mem_map.mp hmemq
      obtain ⟨i, hi, hsome⟩ := List.mem_filterMap.mp hpair
      obtain ⟨q'', hq'', heq⟩ := Option.map_eq_some'.mp hsome
      apply hq i hi
      rw [hq'']
      have : q'' = q' := (Prod.mk.injEq _ _ _ _).mp heq |>.1
      simp only [this]
      simp only at hfst
      rw [hfst]
    rw [hidx, lookupAssoc_foldl_dictInsert (cdkEntries d ids) [] q hnd, hnone]
    rfl

/-- Witness for C7 with one resource carrying `aws:cdk:path = Stack/A`. -/
theorem c7_witness :
    ∃ idx : Index,
      lookupAssoc (retrieve_attribute "eu-west-1" remoteOne [] "Stack" "q").cache
        "Stack" = some idx ∧
      lookupAssoc idx "Stack/A" = some "pid-A" ∧
      lookupAssoc idx "Stack/Other" = none := by
  obtain ⟨idx, hidx, hin, hout⟩ := c7_index_contents "eu-west-1" remoteOne [] "Stack" "q"
    [["r1"]] (fun _ => ⟨"pid-A", some [("aws:cdk:path", "Stack/A")]⟩)
    rfl rfl (by intro i _; rfl) (by decide)
  refine ⟨idx, hidx, ?_, ?_⟩
  · exact hin "r1" (by decide) "Stack/A" rfl
  · exact hout "Stack/Other" (by intro i _; decide)

/-- C8: resolution is deterministic in the explicit state — two resolver
calls with the same locator (stack name and path), the same cache state,
the same region, and the same remote responses produce identical outcomes,
including the order of a glob result's elements.  The embedding makes all
of the Python function's inputs (module globals and remote collaborator
included) explicit, so the outcome is a function of exactly these. -/
theorem c8_deterministic (region₁ region₂ : String) (remote₁ remote₂ : Remote)
    (cache₁ cache₂ : Cache) (s₁ s₂ p₁ p₂ : String)
    (hr : region₁ = region₂) (hm : remote₁ = remote₂) (hc : cache₁ = cache₂)
    (hs : s₁ = s₂) (hp : p₁ = p₂) :
    retrieve_attribute region₁ remote₁ cache₁ s₁ p₁ =
      retrieve_attribute region₂ remote₂ cache₂ s₂ p₂ := by
  rw [hr, hm, hc, hs, hp]

/-- Witness for C8. -/
theorem c8_witness :
    retrieve_attribute "r" remoteStub cacheEx "Stack" "Stack/*" =
      retrieve_attribute "r" remoteStub cacheEx "Stack" "Stack/*" :=
  c8_deterministic "r" "r" remoteStub remoteStub cacheEx cacheEx
    "Stack" "Stack" "Stack/*" "Stack/*" rfl rfl rfl rfl rfl

/-- C5 counterexample: the claim's for-every-input dichotomy (`fails with
the scheme error exactly when the scheme is not cfn`) is false of the
code: `urlsplit` raises `ValueError("Invalid IPv6 URL")` on a netloc with
an unbalanced bracket, so `cfn://[a/b` fails although its scheme is
`cfn`, and `http://[a/b` fails with a `ValueError`, not the scheme
error. -/
theorem c5_counterexample :
    parse_cfn_uri nfkcStub "cfn://[a/b" = .error (.valueError "Invalid IPv6 URL") ∧
    parse_cfn_uri nfkcStub "http://[a/b" = .error (.valueError "Invalid IPv6 URL") :=
  ⟨rfl, rfl⟩

/-- C5 (amended): on every input on which `urllib.parse` itself does not
raise — the fragment-stripped URI splits successfully — `parse_cfn_uri`
of `cli.py` fails, with the scheme error, exactly when the scheme
component is not the literal `cfn`, and every accepted URI yields the
locator `netloc ++ path` of the URI with its fragment discarded (on
inputs where `urllib.parse` raises, that `ValueError` propagates
instead). -/
theorem c5_scheme_gate_amended (nfkc : String → String) (uri : String)
    (df : String × String) (parts : SplitResult)
    (hd : urldefrag nfkc uri = .ok df)
    (hs : urlsplit nfkc df.1 = .ok parts) :
    (parts.scheme ≠ "cfn" →
      parse_cfn_uri nfkc uri = .error (.exceptionMsg
        ("Scheme \x27" ++ parts.scheme ++ "\x27 not supported."))) ∧
    (parts.scheme = "cfn" →
      parse_cfn_uri nfkc uri = .ok (parts.netloc, parts.netloc ++ parts.path)) := by
  constructor
  · intro h
    simp [parse_cfn_uri, hd, hs, h]
  · intro h
    simp [parse_cfn_uri, hd, hs, h]

/-- Witness for the amended C5: the spec's §8 examples —
`cfn://stack/A#frag` parses to locator `stack/A` with the fragment
discarded, `http://stack/A` is rejected with the scheme error. -/
theorem c5_witness_amended :
    parse_cfn_uri nfkcStub "cfn://stack/A#frag" = .ok ("stack", "stack/A") ∧
    parse_cfn_uri nfkcStub "http://stack/A" =
      .error (.exceptionMsg "Scheme \x27http\x27 not supported.") :=
  ⟨(c5_scheme_gate_amended nfkcStub "cfn://stack/A#frag"
      ("cfn://stack/A", "frag") ⟨"cfn", "stack", "/A", "", ""⟩ rfl rfl).2 rfl,
   (c5_scheme_gate_amended nfkcStub "http://stack/A"
      ("http://stack/A", "") ⟨"http", "stack", "/A", "", ""⟩ rfl rfl).1 (by decide)⟩

/-- C9: `parse_cfn_uri` of `main.py` evaluates the undefined global name
`urlparse` as its first action (only `urldefrag` and `urlsplit` are
imported), so it raises `NameError` for every input before any parsing;
hence the registered `cfn` handler of `main.py` never resolves any URI,
whatever the retrieval collaborator would return. -/
theorem c9_urlparse_name_error (nfkc : String → String) (uri : String)
    (retrieveFn : String → String → String → Option String → Except PyErr String) :
    main_parse_cfn_uri nfkc uri = .error (.nameError "urlparse") ∧
    main_handle_cfn_uri nfkc retrieveFn uri = .error (.nameError "urlparse") :=
  ⟨rfl, rfl⟩

/-- C10: loading `cli.py` fails when `AWS_REGION` is unset; when it is
set, every remote call any resolver invocation ever makes is issued
against exactly that region value fixed at load time. -/
theorem c10_region_fixed_at_load :
    (∀ env : List (String × String), lookupAssoc env "AWS_REGION" = none →
      cliModuleLoad env = .error (.exceptionMsg "AWS_REGION not set")) ∧
    (∀ (env : List (String × String)) (r : String), cliModuleLoad env = .ok r →
      ∀ (remote : Remote) (cache : Cache) (s p : String) (c : RemoteCall),
        c ∈ (retrieve_attribute r remote cache s p).calls → c.regionOf = r) := by
  constructor
  · intro env h
    simp [cliModuleLoad, h]
  · intro env r _ remote cache s p c hc
    cases h0 : lookupAssoc cache s with
    | some idx =>
      rw [retrieve_attribute_cached r remote cache s p idx h0] at hc
      simp at hc
    | none =>
      simp only [retrieve_attribute, h0] at hc
      cases h1 : remote.listPages r s with
      | error e =>
        rw [h1] at hc
        simp only [List.mem_singleton] at hc
        simp [hc, RemoteCall.regionOf]
      | ok pages =>
        rw [h1] at hc
        dsimp only at hc
        cases hb : (buildIndexLoop remote r s
            (pages.foldl (fun acc page => acc ++ page) []) [] p).1 with
        | error e =>
          rw [hb] at hc
          simp only [List.mem_cons] at hc
          rcases hc with hc | hc
          · simp [hc, RemoteCall.regionOf]
          · exact buildIndexLoop_calls_region remote r s _ _ _ c hc
        | ok sp =>
          rw [hb] at hc
          simp only [List.mem_cons] at hc
          rcases hc with hc | hc
          · simp [hc, RemoteCall.regionOf]
          · exact buildIndexLoop_calls_region remote r s _ _ _ c hc

/-- Witness for C10: an empty environment aborts the load; with
`AWS_REGION` set, the one remote call of a failing resolution is issued
against that region. -/
theorem c10_witness :
    cliModuleLoad [] = .error (.exceptionMsg "AWS_REGION not set") ∧
    RemoteCall.regionOf (.listResources "eu-west-1" "S") = "eu-west-1" := by
  refine ⟨c10_region_fixed_at_load.1 [] rfl, ?_⟩
  exact c10_region_fixed_at_load.2 [("AWS_REGION", "eu-west-1")] "eu-west-1" rfl
    remoteStub [] "S" "p" (.listResources "eu-west-1" "S") (by decide)

end JsonPreprocessor
